import Mathlib

/-!
Verification of the tile-grid-to-mesh composition pipeline in
`src/generate_with_wfc.py` (functions `solve_with_wfc` and
`create_mesh_from_cfg`).

Meshes are modelled as lists of vertices with exact rational coordinates;
`trimesh` concatenation (`+`) is list append, `apply_translation` is a map,
and the axis-aligned bounding box is the per-axis min/max of the vertices.
`numpy` 2-d arrays are rectangular lists of lists, with out-of-range access
modelled by `Option`/`Except` (an `IndexError`), and python `dict` access by
an association-list lookup (a `KeyError`).  The external WFC solver
(`wfc.wfc.WFCSolver`, repository code not under `src/`) is modelled from the
spec where a claim depends on it.
-/

set_option linter.unusedVariables false

deriving instance DecidableEq for Except

namespace TerrainGen

/-- A vertex in exact arithmetic. -/
@[ext]
structure Vec3 where
  x : ℚ
  y : ℚ
  z : ℚ
deriving DecidableEq, Repr

abbrev Mesh := List Vec3

abbrev Grid := List (List Nat)

/-- `tiles` dict of `create_mesh_pattern`, reduced to what composition reads:
each tile name mapped to its mesh fragment (`tile.get_mesh()`). -/
abbrev Catalog := List (String × Mesh)

/-- `mesh.apply_translation(t)`: translate every vertex by `t`. -/
def translate (t : Vec3) (m : Mesh) : Mesh :=
  m.map (fun v => ⟨v.x + t.x, v.y + t.y, v.z + t.z⟩)

/-- Failure modes of the pipeline, naming the python exceptions that the
code can raise (`IndexError`, `KeyError`, an uncaught export failure) and
the spec's error taxonomy (`ConfigurationError`, `SolveIncomplete`). -/
inductive CErr where
  | indexError
  | keyError
  | historyWriteFailed
  | configurationError
  | solveIncomplete
deriving DecidableEq, Repr

/-- Fail-fast sequencing, the behaviour of an uncaught python exception. -/
def bindE {α β : Type} (r : Except CErr α) (f : α → Except CErr β) : Except CErr β :=
  match r with
  | .error e => .error e
  | .ok a => f a

/-- Turn a failed partial lookup into the corresponding python exception. -/
def orErr {α : Type} (e : CErr) : Option α → Except CErr α
  | none => .error e
  | some a => .ok a

/-- The result of one `solve_with_wfc` call as consumed by composition:
`(tiles, wave, wave_order, names)` (source lines 36 and 64-69). -/
structure LayerData where
  tiles : Catalog
  wave : Grid
  waveOrder : List (Nat × Nat)
  names : List String
deriving DecidableEq

/-- Source line 100: `xy_offset = np.array([x * cfg.dim[0], -y * cfg.dim[1], 0.0])`. -/
def offsetVec (dims : ℚ × ℚ) (y x : Nat) : Vec3 :=
  ⟨(x : ℚ) * dims.1, -((y : ℚ) * dims.2), 0⟩

/-- One exported history artifact of lines 97-107, tagged
`{tileIndex}_{y}_{x}_{tileName}[_translated]` with the exported fragment. -/
structure HistoryRec where
  tileIndex : Nat
  row : Nat
  col : Nat
  tileName : String
  translated : Bool
  frag : Mesh
deriving DecidableEq

/-- `wave_names[wave[y, x]]` together with the raw index `wave[y, x]`:
two `numpy` indexings and one list indexing, each an `IndexError` when out
of range. -/
def lookupName (names : List String) (g : Grid) (y x : Nat) :
    Except CErr (Nat × String) :=
  bindE (orErr .indexError (g.get? y)) fun row =>
  bindE (orErr .indexError (row.get? x)) fun i =>
  bindE (orErr .indexError (names.get? i)) fun name =>
  .ok (i, name)

/-- `tiles[wave_names[wave[y, x]]].get_mesh().copy()` for one layer: the
private per-cell copy of the catalog fragment (copies are values here; the
aliasing discipline is verified separately on the heap model below). -/
def layerFragment (L : LayerData) (y x : Nat) : Except CErr Mesh :=
  bindE (lookupName L.names L.wave y x) fun p =>
  orErr .keyError (L.tiles.lookup p.2)

/-- Lines 90-94: the cell's base fragment, merged additively
(`mesh += over_mesh`) with the overhanging layer's fragment when present. -/
def cellMerged (base : LayerData) (over : Option LayerData) (y x : Nat) :
    Except CErr Mesh :=
  bindE (layerFragment base y x) fun frag =>
  match over with
  | none => .ok frag
  | some o => bindE (layerFragment o y x) fun ofrag => .ok (frag ++ ofrag)

/-- One `mesh.export(...)` call of lines 97-98 / 102-107: performed only when
history is enabled; `sinkOk y x translated` says whether that single write
succeeds.  A failed write is an uncaught exception (the source has no
`try`), so it surfaces as `.error .historyWriteFailed`. -/
def histStep (enableHistory : Bool) (sinkOk : Nat → Nat → Bool → Bool)
    (i y x : Nat) (name : String) (translated : Bool) (frag : Mesh) :
    Except CErr (List HistoryRec) :=
  if enableHistory then
    if sinkOk y x translated then .ok [⟨i, y, x, name, translated, frag⟩]
    else .error .historyWriteFailed
  else .ok []

/-- The loop body, lines 90-108: resolve and copy the cell's fragment(s),
merge, optionally export, translate by the cell's lattice offset, optionally
export again, and hand the placed fragment to the accumulator. -/
def composeCell (base : LayerData) (over : Option LayerData) (dims : ℚ × ℚ)
    (enableHistory : Bool) (sinkOk : Nat → Nat → Bool → Bool) (y x : Nat) :
    Except CErr (Mesh × List HistoryRec) :=
  bindE (lookupName base.names base.wave y x) fun p =>
  bindE (orErr .keyError (base.tiles.lookup p.2)) fun frag =>
  bindE (match over with
    | none => .ok frag
    | some o => bindE (layerFragment o y x) fun ofrag => .ok (frag ++ ofrag)) fun merged =>
  bindE (histStep enableHistory sinkOk p.1 y x p.2 false merged) fun h1 =>
  let placed := translate (offsetVec dims y x) merged
  bindE (histStep enableHistory sinkOk p.1 y x p.2 true placed) fun h2 =>
  .ok (placed, h1 ++ h2)

/-- `wave.shape[0]`. -/
def gridH (g : Grid) : Nat := g.length

/-- `wave.shape[1]` (a `numpy` array is rectangular; the first row's length
is the column count). -/
def gridW : Grid → Nat
  | [] => 0
  | row :: _ => row.length

/-- The iteration domain of lines 88-89, row-major:
`for y in range(H): for x in range(W)`. -/
def cellList (H W : Nat) : List (Nat × Nat) :=
  (List.range H).flatMap (fun y => (List.range W).map (fun x => (y, x)))

/-- Run an effectful step over a list left-to-right, stopping at the first
failure — a python `for` loop whose body may raise. -/
def exceptMapList {α β : Type} (f : α → Except CErr β) : List α → Except CErr (List β)
  | [] => .ok []
  | a :: l =>
    bindE (f a) fun b =>
    bindE (exceptMapList f l) fun bs =>
    .ok (b :: bs)

/-- Lines 86-109: the whole composition loop.  Each list entry is one cell's
placed fragment (what `result_mesh += mesh` appended) together with the
history artifacts that cell exported. -/
def composeAll (base : LayerData) (over : Option LayerData) (dims : ℚ × ℚ)
    (enableHistory : Bool) (sinkOk : Nat → Nat → Bool → Bool) :
    Except CErr (List (Mesh × List HistoryRec)) :=
  exceptMapList (fun yx => composeCell base over dims enableHistory sinkOk yx.1 yx.2)
    (cellList (gridH base.wave) (gridW base.wave))

/-- The placed fragments only. -/
def composedFrags (base : LayerData) (over : Option LayerData) (dims : ℚ × ℚ)
    (enableHistory : Bool) (sinkOk : Nat → Nat → Bool → Bool) :
    Except CErr (List Mesh) :=
  (composeAll base over dims enableHistory sinkOk).map (List.map Prod.fst)

/-- Minimum of `f` over the vertices of a (nonempty) mesh; `0` for the empty
mesh, where `trimesh` has no bounding box. -/
def foldMin (f : Vec3 → ℚ) : Mesh → ℚ
  | [] => 0
  | v :: vs => vs.foldl (fun a w => min a (f w)) (f v)

/-- Maximum of `f` over the vertices of a (nonempty) mesh. -/
def foldMax (f : Vec3 → ℚ) : Mesh → ℚ
  | [] => 0
  | v :: vs => vs.foldl (fun a w => max a (f w)) (f v)

/-- Lines 111-113: `center = np.mean(result_mesh.bounding_box.bounds, axis=0)`,
the per-axis midpoint of the axis-aligned bounding box. -/
def bboxCenter (m : Mesh) : Vec3 :=
  ⟨(foldMin Vec3.x m + foldMax Vec3.x m) / 2,
   (foldMin Vec3.y m + foldMax Vec3.y m) / 2,
   (foldMin Vec3.z m + foldMax Vec3.z m) / 2⟩

/-- Lines 111-116: zero the vertical component of the bounding-box midpoint
(`center[2] = 0.0`) and translate the mesh by the negated midpoint. -/
def finalize (m : Mesh) : Mesh :=
  translate ⟨-(bboxCenter m).x, -(bboxCenter m).y, 0⟩ m

/-- What history mode persists besides the final mesh: the raw `wave` and
`wave_order` arrays (lines 75-76) and the per-cell fragment exports. -/
structure SavedHistory where
  wave : Grid
  waveOrder : List (Nat × Nat)
  parts : List HistoryRec
deriving DecidableEq

/-- Lines 84-116 of `create_mesh_from_cfg`: compose every cell, accumulate
(`result_mesh` is the concatenation of the placed fragments), recenter, and
pair the mesh with the history artifacts when history is enabled. -/
def pipelineMesh (base : LayerData) (over : Option LayerData) (dims : ℚ × ℚ)
    (enableHistory : Bool) (sinkOk : Nat → Nat → Bool → Bool) :
    Except CErr (Mesh × Option SavedHistory) :=
  bindE (composeAll base over dims enableHistory sinkOk) fun cells =>
  .ok (finalize (List.flatten (cells.map Prod.fst)),
       if enableHistory then
         some ⟨base.wave, base.waveOrder, List.flatten (cells.map Prod.snd)⟩
       else none)

/-- The grid is a rectangular `H × W` array (the `numpy` shape invariant). -/
def gridRect (g : Grid) (H W : Nat) : Prop :=
  g.length = H ∧ ∀ row ∈ g, row.length = W

/-- Every index stored in the grid is valid in the layer's name table. -/
def entriesValid (g : Grid) (names : List String) : Prop :=
  ∀ row ∈ g, ∀ i ∈ row, i < names.length

/-- Every name of the name table has a fragment in the layer's catalog. -/
def namesCovered (names : List String) (tiles : Catalog) : Prop :=
  ∀ name ∈ names, (tiles.lookup name).isSome = true

/-- A well-formed resolved layer of shape `H × W`. -/
def layerWF (L : LayerData) (H W : Nat) : Prop :=
  gridRect L.wave H W ∧ entriesValid L.wave L.names ∧ namesCovered L.names L.tiles

/-- Two layer-solve results that agree on everything composition reads —
the catalog, the resolved grid and the name table — and may differ only in
the solver's resolution order. -/
def sameSolve (a b : LayerData) : Prop :=
  a.tiles = b.tiles ∧ a.wave = b.wave ∧ a.names = b.names

/-! ### Heap model of the composition loop

`trimesh` objects are mutable: `get_mesh()` returns the catalog's master
object, `.copy()` allocates a fresh object, `apply_translation` mutates its
receiver in place, and `a + b` allocates a fresh concatenation (so `x += y`
rebinds `x`).  The heap is a list of mesh objects addressed by allocation
index; catalogs hold object ids.  This model carries claim C7. -/

abbrev CatalogIds := List (String × Nat)

/-- Mutable-state view of the loop: the object heap and the id currently
bound to `result_mesh`. -/
structure HState where
  heap : List Mesh
  resultId : Nat
deriving DecidableEq

/-- The loop body, lines 90-108, on the object heap: copy the master
fragment, merge (allocating, as `Trimesh.__add__` does), translate the
fresh object in place, and rebind `result_mesh` to a fresh concatenation. -/
def composeCellHeap (tilesI : CatalogIds) (names : List String) (g : Grid)
    (over : Option (CatalogIds × List String × Grid)) (dims : ℚ × ℚ)
    (y x : Nat) (s : HState) : Except CErr HState :=
  bindE (lookupName names g y x) fun p =>
  bindE (orErr .keyError (tilesI.lookup p.2)) fun tid =>
  let h1 := s.heap ++ [s.heap.getD tid []]
  let i1 := s.heap.length
  bindE (match over with
    | none => .ok (h1, i1)
    | some od =>
      bindE (lookupName od.2.1 od.2.2 y x) fun q =>
      bindE (orErr .keyError (od.1.lookup q.2)) fun otid =>
      let h2 := h1 ++ [h1.getD otid []]
      let i2 := h1.length
      .ok (h2 ++ [h2.getD i1 [] ++ h2.getD i2 []], h2.length)) fun hm =>
  let h4 := hm.1.set hm.2 (translate (offsetVec dims y x) (hm.1.getD hm.2 []))
  .ok ⟨h4 ++ [h4.getD s.resultId [] ++ h4.getD hm.2 []], h4.length⟩

/-- Fold an effectful step over a list, stopping at the first failure. -/
def exceptFoldList {α σ : Type} (f : α → σ → Except CErr σ) : List α → σ → Except CErr σ
  | [], s => .ok s
  | a :: l, s => bindE (f a s) fun s2 => exceptFoldList f l s2

/-- Lines 86-109 on the object heap: run the loop body over every cell. -/
def composeHeap (tilesI : CatalogIds) (names : List String) (g : Grid)
    (over : Option (CatalogIds × List String × Grid)) (dims : ℚ × ℚ)
    (s : HState) : Except CErr HState :=
  exceptFoldList (fun yx t => composeCellHeap tilesI names g over dims yx.1 yx.2 t)
    (cellList (gridH g) (gridW g)) s

/-! ### The layer solves (lines 18-36 and 64-69)

`WFCSolver` lives in `wfc/wfc.py`, repository code that is not under `src/`;
only its call sites are visible here.  Its solving core is kept as an opaque
oracle parameter, and the behaviour the claims depend on is modelled from
the spec. -/

/-- The black-box solving core: from the requested shape, the registered
name table and the seed placements, produce the resolved grid and the
resolution order (or fail, e.g. `SolveIncomplete`). -/
def Oracle : Type :=
  (Nat × Nat) → List String → List (String × (Nat × Nat)) →
    Except CErr (Grid × List (Nat × Nat))

/-- Modelled from the spec: `WFCSolver.run` of `wfc/wfc.py` is not under
`src/`.  Per the spec, an initial tile name must name a registered tile and
fails with `ConfigurationError` otherwise, before any solving starts; the
solving itself is the opaque oracle. -/
def runSolver (oracle : Oracle) (shape : Nat × Nat) (registered : List String)
    (initTiles : List (String × (Nat × Nat))) :
    Except CErr (Grid × List (Nat × Nat)) :=
  if initTiles.all (fun p => registered.contains p.1) then
    oracle shape registered initTiles
  else .error .configurationError

/-- Lines 18-36, `solve_with_wfc`: build the catalog (taken here as the
already-built `cfgTiles`, since `create_mesh_pattern` is external), register
every tile in catalog order, seed `initial_tile_name` at the grid's center
`(H // 2, W // 2)`, and run the solver. -/
def solve_with_wfc (oracle : Oracle) (cfgTiles : Catalog) (shape : Nat × Nat)
    (initialTileName : String) : Except CErr LayerData :=
  bindE (runSolver oracle shape (cfgTiles.map Prod.fst)
    [(initialTileName, (shape.1 / 2, shape.2 / 2))]) fun r =>
  .ok ⟨cfgTiles, r.1, r.2, cfgTiles.map Prod.fst⟩

/-- Lines 64-69 of `create_mesh_from_cfg`: the base solve, and, when an
overhanging configuration is present, the overhanging solve — both invoked
with the same `shape` argument. -/
def runLayerSolves (oracle1 oracle2 : Oracle) (cfg : Catalog)
    (overCfg : Option Catalog) (shape : Nat × Nat)
    (initName overInitName : String) :
    Except CErr (LayerData × Option LayerData) :=
  bindE (solve_with_wfc oracle1 cfg shape initName) fun base =>
  match overCfg with
  | none => .ok (base, none)
  | some oc =>
    bindE (solve_with_wfc oracle2 oc shape overInitName) fun over =>
    .ok (base, some over)

/-! ## Basic lemmas -/

@[simp]
theorem bindE_ok {α β : Type} (a : α) (f : α → Except CErr β) : bindE (.ok a) f = f a := rfl

@[simp]
theorem bindE_error {α β : Type} (e : CErr) (f : α → Except CErr β) :
    bindE (.error e) f = .error e := rfl

@[simp]
theorem orErr_some {α : Type} (e : CErr) (a : α) : orErr e (some a) = .ok a := rfl

@[simp]
theorem orErr_none {α : Type} (e : CErr) : orErr e (none : Option α) = .error e := rfl

theorem translate_append (t : Vec3) (m1 m2 : Mesh) :
    translate t (m1 ++ m2) = translate t m1 ++ translate t m2 :=
  List.map_append _ _ _

theorem translate_zero (m : Mesh) : translate ⟨0, 0, 0⟩ m = m := by
  have h : (fun v : Vec3 => (⟨v.x + 0, v.y + 0, v.z + 0⟩ : Vec3)) = id := by
    funext v
    cases v
    simp
  rw [translate, h, List.map_id]

/-! ## Recentring (claims C5, C6) -/

theorem foldl_op_shift (op : ℚ → ℚ → ℚ) (hop : ∀ a b c, op (a + c) (b + c) = op a b + c)
    (f : Vec3 → ℚ) (c : ℚ) (l : List Vec3) (a : ℚ) :
    l.foldl (fun b w => op b (f w + c)) (a + c) = l.foldl (fun b w => op b (f w)) a + c := by
  induction l generalizing a with
  | nil => rfl
  | cons w l ih =>
    simp only [List.foldl_cons]
    rw [hop, ih]

theorem foldMin_translate (t : Vec3) (f : Vec3 → ℚ) (c : ℚ)
    (hf : ∀ v : Vec3, f ⟨v.x + t.x, v.y + t.y, v.z + t.z⟩ = f v + c)
    (m : Mesh) (hm : m ≠ []) :
    foldMin f (translate t m) = foldMin f m + c := by
  match m with
  | [] => exact absurd rfl hm
  | v :: vs =>
    show ((vs.map fun w : Vec3 => (⟨w.x + t.x, w.y + t.y, w.z + t.z⟩ : Vec3)).foldl
        (fun a w => min a (f w)) (f ⟨v.x + t.x, v.y + t.y, v.z + t.z⟩)) = _
    rw [List.foldl_map, hf v]
    simp only [hf]
    exact foldl_op_shift min (fun a b c => min_add_add_right a b c) f c vs (f v)

theorem foldMax_translate (t : Vec3) (f : Vec3 → ℚ) (c : ℚ)
    (hf : ∀ v : Vec3, f ⟨v.x + t.x, v.y + t.y, v.z + t.z⟩ = f v + c)
    (m : Mesh) (hm : m ≠ []) :
    foldMax f (translate t m) = foldMax f m + c := by
  match m with
  | [] => exact absurd rfl hm
  | v :: vs =>
    show ((vs.map fun w : Vec3 => (⟨w.x + t.x, w.y + t.y, w.z + t.z⟩ : Vec3)).foldl
        (fun a w => max a (f w)) (f ⟨v.x + t.x, v.y + t.y, v.z + t.z⟩)) = _
    rw [List.foldl_map, hf v]
    simp only [hf]
    exact foldl_op_shift max (fun a b c => max_add_add_right a b c) f c vs (f v)

theorem bboxCenter_translate (t : Vec3) (m : Mesh) (hm : m ≠ []) :
    bboxCenter (translate t m) =
      ⟨(bboxCenter m).x + t.x, (bboxCenter m).y + t.y, (bboxCenter m).z + t.z⟩ := by
  unfold bboxCenter
  rw [foldMin_translate t Vec3.x t.x (fun v => rfl) m hm,
      foldMax_translate t Vec3.x t.x (fun v => rfl) m hm,
      foldMin_translate t Vec3.y t.y (fun v => rfl) m hm,
      foldMax_translate t Vec3.y t.y (fun v => rfl) m hm,
      foldMin_translate t Vec3.z t.z (fun v => rfl) m hm,
      foldMax_translate t Vec3.z t.z (fun v => rfl) m hm]
  ext <;> simp <;> ring

theorem finalize_map_z (m : Mesh) : (finalize m).map Vec3.z = m.map Vec3.z := by
  unfold finalize translate
  rw [List.map_map]
  have h : (Vec3.z ∘ fun v : Vec3 =>
      (⟨v.x + -(bboxCenter m).x, v.y + -(bboxCenter m).y, v.z + 0⟩ : Vec3)) = Vec3.z := by
    funext v
    simp [Function.comp]
  rw [h]

theorem finalize_ne_nil (m : Mesh) (hm : m ≠ []) : finalize m ≠ [] := by
  unfold finalize translate
  simpa using hm

theorem bboxCenter_finalize (m : Mesh) (hm : m ≠ []) :
    bboxCenter (finalize m) = ⟨0, 0, (bboxCenter m).z⟩ := by
  unfold finalize
  rw [bboxCenter_translate _ m hm]
  ext <;> simp

/-- Claim C5: recentring translates the composed mesh by the negated
bounding-box midpoint with its vertical component forced to zero: afterwards
the bounding-box midpoint is `(0, 0, z)` for the same `z` as before, and
every vertex's `z` coordinate is unchanged. -/
theorem c5_recentring (m : Mesh) (hm : m ≠ []) :
    bboxCenter (finalize m) = ⟨0, 0, (bboxCenter m).z⟩ ∧
    (finalize m).map Vec3.z = m.map Vec3.z :=
  ⟨bboxCenter_finalize m hm, finalize_map_z m⟩

/-- Claim C5 witness at a concrete two-vertex mesh. -/
theorem c5_recentring_witness :
    ([⟨1, 2, 3⟩, ⟨3, 6, 5⟩] : Mesh) ≠ [] ∧
    (bboxCenter (finalize [⟨1, 2, 3⟩, ⟨3, 6, 5⟩]) =
        ⟨0, 0, (bboxCenter [⟨1, 2, 3⟩, ⟨3, 6, 5⟩]).z⟩ ∧
      (finalize [⟨1, 2, 3⟩, ⟨3, 6, 5⟩]).map Vec3.z =
        ([⟨1, 2, 3⟩, ⟨3, 6, 5⟩] : Mesh).map Vec3.z) :=
  ⟨by decide, c5_recentring [⟨1, 2, 3⟩, ⟨3, 6, 5⟩] (by decide)⟩

/-- Claim C6: recentring is idempotent: over the exact-arithmetic embedding,
`finalize (finalize m) = finalize m` for every mesh `m`. -/
theorem c6_finalize_idempotent (m : Mesh) : finalize (finalize m) = finalize m := by
  by_cases hm : m = []
  · subst hm
    rfl
  · conv_lhs => rw [finalize]
    rw [bboxCenter_finalize m hm]
    simp only [neg_zero]
    exact translate_zero (finalize m)

/-! ## The composition loop -/

theorem exceptMapList_ok_of_forall {α β : Type} (f : α → Except CErr β) (l : List α)
    (h : ∀ a ∈ l, ∃ b, f a = .ok b) :
    ∃ bs, exceptMapList f l = .ok bs ∧ bs.length = l.length ∧
      ∀ a ∈ l, ∃ b, f a = .ok b ∧ b ∈ bs := by
  induction l with
  | nil => exact ⟨[], rfl, rfl, by simp⟩
  | cons a l ih =>
    obtain ⟨b, hb⟩ := h a (List.mem_cons_self a l)
    obtain ⟨bs, hbs, hlen, hmem⟩ := ih (fun a ha => h a (List.mem_cons_of_mem _ ha))
    refine ⟨b :: bs, ?_, by simp [hlen], ?_⟩
    · simp [exceptMapList, hb, hbs]
    · intro a2 ha2
      rcases List.mem_cons.mp ha2 with h1 | h2
      · exact ⟨b, h1 ▸ hb, List.mem_cons_self b bs⟩
      · obtain ⟨b2, hb2, hb2m⟩ := hmem a2 h2
        exact ⟨b2, hb2, List.mem_cons_of_mem _ hb2m⟩

theorem length_cellList (H W : Nat) : (cellList H W).length = H * W := by
  induction H with
  | zero => simp [cellList]
  | succ n ih =>
    unfold cellList at ih ⊢
    rw [List.range_succ, List.flatMap_append, List.length_append, ih]
    simp [Nat.succ_mul]

theorem mem_cellList (H W y x : Nat) : (y, x) ∈ cellList H W ↔ y < H ∧ x < W := by
  unfold cellList
  simp [List.mem_flatMap, List.mem_range]

theorem lookupName_ok (names : List String) (g : Grid) (H W y x : Nat)
    (hrect : gridRect g H W) (hval : entriesValid g names) (hy : y < H) (hx : x < W) :
    ∃ i name, lookupName names g y x = .ok (i, name) ∧ name ∈ names := by
  obtain ⟨hlen, hrows⟩ := hrect
  have hy' : y < g.length := by rw [hlen]; exact hy
  have hrmem : g[y] ∈ g := List.getElem_mem hy'
  have hx' : x < g[y].length := by rw [hrows g[y] hrmem]; exact hx
  have hilt : g[y][x] < names.length := hval g[y] hrmem g[y][x] (List.getElem_mem hx')
  refine ⟨g[y][x], names[g[y][x]], ?_, List.getElem_mem hilt⟩
  unfold lookupName
  simp only [List.get?_eq_getElem?]
  rw [List.getElem?_eq_getElem hy']
  simp only [orErr_some, bindE_ok]
  rw [List.getElem?_eq_getElem hx']
  simp only [orErr_some, bindE_ok]
  rw [List.getElem?_eq_getElem hilt]
  simp only [orErr_some, bindE_ok]

theorem layerFragment_ok (L : LayerData) (H W y x : Nat) (h : layerWF L H W)
    (hy : y < H) (hx : x < W) :
    ∃ i name m, lookupName L.names L.wave y x = .ok (i, name) ∧
      L.tiles.lookup name = some m ∧ layerFragment L y x = .ok m := by
  obtain ⟨hrect, hval, hcov⟩ := h
  obtain ⟨i, name, hlk, hmem⟩ := lookupName_ok L.names L.wave H W y x hrect hval hy hx
  obtain ⟨m, hm⟩ := Option.isSome_iff_exists.mp (hcov name hmem)
  exact ⟨i, name, m, hlk, hm, by simp [layerFragment, hlk, hm]⟩

theorem composeCell_ok (base : LayerData) (over : Option LayerData) (dims : ℚ × ℚ)
    (sinkOk : Nat → Nat → Bool → Bool) (H W y x : Nat)
    (hb : layerWF base H W) (hov : ∀ o ∈ over, layerWF o H W)
    (hy : y < H) (hx : x < W) :
    ∃ m, cellMerged base over y x = .ok m ∧
      composeCell base over dims false sinkOk y x =
        .ok (translate (offsetVec dims y x) m, []) := by
  obtain ⟨i, name, mb, hlk, hlkup, hfragb⟩ := layerFragment_ok base H W y x hb hy hx
  cases over with
  | none =>
    refine ⟨mb, by simp [cellMerged, hfragb], ?_⟩
    simp [composeCell, hlk, hlkup, histStep]
  | some o =>
    obtain ⟨i2, name2, mo, hlk2, hlkup2, hfrago⟩ := layerFragment_ok o H W y x (hov o rfl) hy hx
    refine ⟨mb ++ mo, by simp [cellMerged, hfragb, hfrago], ?_⟩
    simp [composeCell, hlk, hlkup, hfrago, histStep]

/-- Claim C1 (as stated, it fails on the code): the composition step of
`create_mesh_from_cfg` performs no shape check at all.  With a `3×3` base
grid and a `3×4` overhanging grid it silently composes the `3×3`
overlapping region (9 fragments, no error); with a `3×4` base grid and a
`3×3` overhanging grid it stops with a bare `IndexError`.  Neither run
fails with a `LayerShapeMismatch`-style error before cells are composed. -/
theorem c1_shape_mismatch_not_detected :
    (composedFrags ⟨[("a", [⟨0, 0, 0⟩])], [[0, 0, 0], [0, 0, 0], [0, 0, 0]], [], ["a"]⟩
        (some ⟨[("b", [⟨1, 1, 1⟩])], [[0, 0, 0, 0], [0, 0, 0, 0], [0, 0, 0, 0]], [], ["b"]⟩)
        (1, 1) false (fun _ _ _ => true)).map List.length = .ok 9 ∧
    composedFrags ⟨[("a", [⟨0, 0, 0⟩])], [[0, 0, 0, 0], [0, 0, 0, 0], [0, 0, 0, 0]], [], ["a"]⟩
        (some ⟨[("b", [⟨1, 1, 1⟩])], [[0, 0, 0], [0, 0, 0], [0, 0, 0]], [], ["b"]⟩)
        (1, 1) false (fun _ _ _ => true) = .error .indexError :=
  ⟨by with_unfolding_all rfl, by with_unfolding_all rfl⟩

/-- Claim C2: whatever fragment a cell `(y, x)` resolves to, the placed
fragment handed to the accumulator is the merged fragment translated by
exactly `(x * dim_x, -y * dim_y, 0)`, and that one translation is applied
to the base part and to the overhanging part of the cell alike. -/
theorem c2_cell_translation (base o : LayerData) (dims : ℚ × ℚ)
    (enableHistory : Bool) (sinkOk : Nat → Nat → Bool → Bool) (y x : Nat)
    (m om : Mesh) (res : Mesh × List HistoryRec)
    (hb : layerFragment base y x = .ok m)
    (ho : layerFragment o y x = .ok om)
    (hres : composeCell base (some o) dims enableHistory sinkOk y x = .ok res) :
    res.1 = translate ⟨(x : ℚ) * dims.1, -((y : ℚ) * dims.2), 0⟩ m ++
      translate ⟨(x : ℚ) * dims.1, -((y : ℚ) * dims.2), 0⟩ om := by
  unfold layerFragment at hb
  cases hlk : lookupName base.names base.wave y x with
  | error e => rw [hlk] at hb; exact absurd hb (by simp)
  | ok p =>
    rw [hlk] at hb
    simp only [bindE_ok] at hb
    cases hlkup : base.tiles.lookup p.2 with
    | none => rw [hlkup] at hb; exact absurd hb (by simp)
    | some mb =>
      rw [hlkup] at hb
      have hmb : mb = m := by simpa using hb
      subst hmb
      simp only [composeCell, hlk, bindE_ok, hlkup, orErr_some, ho] at hres
      cases hh1 : histStep enableHistory sinkOk p.1 y x p.2 false (mb ++ om) with
      | error e => rw [hh1] at hres; exact absurd hres (by simp)
      | ok h1 =>
        rw [hh1] at hres
        cases hh2 : histStep enableHistory sinkOk p.1 y x p.2 true
            (translate (offsetVec dims y x) (mb ++ om)) with
        | error e => rw [hh2] at hres; exact absurd hres (by simp)
        | ok h2 =>
          rw [hh2] at hres
          have : (translate (offsetVec dims y x) (mb ++ om), h1 ++ h2) = res := by
            simpa using hres
          rw [← this]
          exact translate_append _ _ _

/-- Claim C2 witness: a concrete two-layer cell at `(y, x) = (0, 1)` with
`dims = (2, 3)`. -/
theorem c2_cell_translation_witness :
    layerFragment ⟨[("a", [⟨0, 0, 0⟩])], [[0, 0]], [], ["a"]⟩ 0 1 = .ok [⟨0, 0, 0⟩] ∧
    layerFragment ⟨[("b", [⟨1, 0, 0⟩])], [[0, 0]], [], ["b"]⟩ 0 1 = .ok [⟨1, 0, 0⟩] ∧
    composeCell ⟨[("a", [⟨0, 0, 0⟩])], [[0, 0]], [], ["a"]⟩
        (some ⟨[("b", [⟨1, 0, 0⟩])], [[0, 0]], [], ["b"]⟩) (2, 3) false
        (fun _ _ _ => true) 0 1 = .ok ([⟨2, 0, 0⟩, ⟨3, 0, 0⟩], []) ∧
    ([⟨2, 0, 0⟩, ⟨3, 0, 0⟩] : Mesh) =
      translate ⟨(1 : ℚ) * 2, -((0 : ℚ) * 3), 0⟩ [⟨0, 0, 0⟩] ++
        translate ⟨(1 : ℚ) * 2, -((0 : ℚ) * 3), 0⟩ [⟨1, 0, 0⟩] :=
  ⟨by with_unfolding_all rfl, by with_unfolding_all rfl, by with_unfolding_all rfl,
    c2_cell_translation ⟨[("a", [⟨0, 0, 0⟩])], [[0, 0]], [], ["a"]⟩
      ⟨[("b", [⟨1, 0, 0⟩])], [[0, 0]], [], ["b"]⟩ (2, 3) false (fun _ _ _ => true) 0 1
      [⟨0, 0, 0⟩] [⟨1, 0, 0⟩] ([⟨2, 0, 0⟩, ⟨3, 0, 0⟩], [])
      (by with_unfolding_all rfl) (by with_unfolding_all rfl) (by with_unfolding_all rfl)⟩

/-- Claim C9 (as stated, it fails on the code): history writing is not
best-effort.  The per-cell `mesh.export` calls are not guarded, so a single
failing history write aborts the whole composition and no mesh is produced;
the same run with all writes succeeding (or with history disabled) does
produce the mesh. -/
theorem c9_history_failure_aborts :
    pipelineMesh ⟨[("a", [⟨0, 0, 0⟩])], [[0]], [], ["a"]⟩ none (1, 1) true
        (fun _ _ _ => false) = .error .historyWriteFailed ∧
    pipelineMesh ⟨[("a", [⟨0, 0, 0⟩])], [[0]], [], ["a"]⟩ none (1, 1) true
        (fun _ _ _ => true) =
      .ok ([⟨0, 0, 0⟩], some ⟨[[0]], [],
        [⟨0, 0, 0, "a", false, [⟨0, 0, 0⟩]⟩, ⟨0, 0, 0, "a", true, [⟨0, 0, 0⟩]⟩]⟩) ∧
    pipelineMesh ⟨[("a", [⟨0, 0, 0⟩])], [[0]], [], ["a"]⟩ none (1, 1) false
        (fun _ _ _ => false) = .ok ([⟨0, 0, 0⟩], none) :=
  ⟨by with_unfolding_all rfl, by with_unfolding_all rfl, by with_unfolding_all rfl⟩

theorem gridW_of_rect (g : Grid) (H W : Nat) (h : gridRect g H W) (hH : 0 < H) :
    gridW g = W := by
  obtain ⟨hlen, hrows⟩ := h
  cases g with
  | nil => rw [← hlen] at hH; exact absurd hH (by simp)
  | cons row rest => exact hrows row (List.mem_cons_self _ _)

/-- Claim C3: for a well-formed `H × W` base grid (and, when present, a
well-formed overhanging grid of the same shape), composition succeeds and
accumulates exactly `H * W` placed fragments, one per grid cell, each being
that cell's merged fragment translated to its lattice offset. -/
theorem c3_fragment_count (base : LayerData) (over : Option LayerData) (dims : ℚ × ℚ)
    (sinkOk : Nat → Nat → Bool → Bool) (H W : Nat)
    (hb : layerWF base H W) (hov : ∀ o ∈ over, layerWF o H W) :
    ∃ frags : List Mesh,
      composedFrags base over dims false sinkOk = .ok frags ∧
      frags.length = H * W ∧
      ∀ y x, y < H → x < W →
        ∃ m, cellMerged base over y x = .ok m ∧
          translate (offsetVec dims y x) m ∈ frags := by
  rcases Nat.eq_zero_or_pos H with hH0 | hHpos
  · subst hH0
    refine ⟨[], ?_, by simp, fun y x hy hx => absurd hy (Nat.not_lt_zero y)⟩
    have hnil : base.wave = [] := List.length_eq_zero.mp hb.1.1
    simp [composedFrags, composeAll, gridH, hnil, cellList, exceptMapList, Except.map]
  · have hdom : cellList (gridH base.wave) (gridW base.wave) = cellList H W := by
      rw [show gridH base.wave = H from hb.1.1, gridW_of_rect base.wave H W hb.1 hHpos]
    have hcells : ∀ yx ∈ cellList H W,
        ∃ r, composeCell base over dims false sinkOk yx.1 yx.2 = .ok r := by
      intro yx hyx
      obtain ⟨hy, hx⟩ := (mem_cellList H W yx.1 yx.2).mp hyx
      obtain ⟨m, hm, hc⟩ := composeCell_ok base over dims sinkOk H W yx.1 yx.2 hb hov hy hx
      exact ⟨_, hc⟩
    obtain ⟨rs, hrs, hlen, hmem⟩ := exceptMapList_ok_of_forall _ (cellList H W) hcells
    refine ⟨rs.map Prod.fst, ?_, ?_, ?_⟩
    · simp only [composedFrags, composeAll, hdom, hrs, Except.map]
    · rw [List.length_map, hlen, length_cellList]
    · intro y x hy hx
      obtain ⟨m, hm, hc⟩ := composeCell_ok base over dims sinkOk H W y x hb hov hy hx
      obtain ⟨r, hr, hrmem⟩ := hmem (y, x) ((mem_cellList H W y x).mpr ⟨hy, hx⟩)
      refine ⟨m, hm, ?_⟩
      have hreq : r = (translate (offsetVec dims y x) m, []) :=
        Except.ok.inj (hr.symm.trans hc)
      have : r.1 ∈ rs.map Prod.fst := List.mem_map_of_mem Prod.fst hrmem
      rw [hreq] at this
      exact this

/-- Claim C3 witness: a concrete `2 × 2` base-only run. -/
theorem c3_fragment_count_witness :
    layerWF ⟨[("a", [⟨0, 0, 0⟩])], [[0, 0], [0, 0]], [], ["a"]⟩ 2 2 ∧
    (∃ frags : List Mesh,
      composedFrags ⟨[("a", [⟨0, 0, 0⟩])], [[0, 0], [0, 0]], [], ["a"]⟩ none (1, 1) false
          (fun _ _ _ => true) = .ok frags ∧
      frags.length = 2 * 2 ∧
      ∀ y x, y < 2 → x < 2 →
        ∃ m, cellMerged ⟨[("a", [⟨0, 0, 0⟩])], [[0, 0], [0, 0]], [], ["a"]⟩ none y x = .ok m ∧
          translate (offsetVec (1, 1) y x) m ∈ frags) :=
  ⟨by unfold layerWF gridRect entriesValid namesCovered; decide,
    c3_fragment_count ⟨[("a", [⟨0, 0, 0⟩])], [[0, 0], [0, 0]], [], ["a"]⟩ none
      (1, 1) (fun _ _ _ => true) 2 2
      (by unfold layerWF gridRect entriesValid namesCovered; decide)
      (fun o ho => absurd ho (Option.not_mem_none o))⟩

/-! ## Independence from the resolution order (claim C4) -/

theorem layerFragment_congr (a b : LayerData) (h : sameSolve a b) (y x : Nat) :
    layerFragment a y x = layerFragment b y x := by
  obtain ⟨ht, hw, hn⟩ := h
  unfold layerFragment lookupName
  rw [ht, hw, hn]

theorem composeCell_congr (b1 b2 : LayerData) (ov1 ov2 : Option LayerData)
    (dims : ℚ × ℚ) (eh : Bool) (sinkOk : Nat → Nat → Bool → Bool) (y x : Nat)
    (hb : sameSolve b1 b2)
    (hov : (ov1 = none ∧ ov2 = none) ∨ ∃ u v, ov1 = some u ∧ ov2 = some v ∧ sameSolve u v) :
    composeCell b1 ov1 dims eh sinkOk y x = composeCell b2 ov2 dims eh sinkOk y x := by
  obtain ⟨ht, hw, hn⟩ := hb
  rcases hov with ⟨h1, h2⟩ | ⟨u, v, h1, h2, huv⟩
  · subst h1
    subst h2
    unfold composeCell lookupName
    rw [ht, hw, hn]
  · subst h1
    subst h2
    unfold composeCell lookupName
    rw [ht, hw, hn]
    have hfrag := layerFragment_congr u v huv y x
    simp only [hfrag]

theorem composeAll_congr (b1 b2 : LayerData) (ov1 ov2 : Option LayerData)
    (dims : ℚ × ℚ) (eh : Bool) (sinkOk : Nat → Nat → Bool → Bool)
    (hb : sameSolve b1 b2)
    (hov : (ov1 = none ∧ ov2 = none) ∨ ∃ u v, ov1 = some u ∧ ov2 = some v ∧ sameSolve u v) :
    composeAll b1 ov1 dims eh sinkOk = composeAll b2 ov2 dims eh sinkOk := by
  have hf : (fun yx : Nat × Nat => composeCell b1 ov1 dims eh sinkOk yx.1 yx.2) =
      (fun yx : Nat × Nat => composeCell b2 ov2 dims eh sinkOk yx.1 yx.2) :=
    funext fun yx => composeCell_congr b1 b2 ov1 ov2 dims eh sinkOk yx.1 yx.2 hb hov
  unfold composeAll
  rw [hb.2.1, hf]

/-- Claim C4: the final mesh is independent of the solver's resolution
order.  For two runs whose catalogs, resolved grids and name tables agree —
the `wave_order` values being arbitrary — the mesh component of the pipeline
output is identical; `wave_order` can show up only in the history
artifacts. -/
theorem c4_wave_order_irrelevant (b1 b2 : LayerData) (ov1 ov2 : Option LayerData)
    (dims : ℚ × ℚ) (eh : Bool) (sinkOk : Nat → Nat → Bool → Bool)
    (hb : sameSolve b1 b2)
    (hov : (ov1 = none ∧ ov2 = none) ∨ ∃ u v, ov1 = some u ∧ ov2 = some v ∧ sameSolve u v) :
    (pipelineMesh b1 ov1 dims eh sinkOk).map Prod.fst =
      (pipelineMesh b2 ov2 dims eh sinkOk).map Prod.fst := by
  have hall := composeAll_congr b1 b2 ov1 ov2 dims eh sinkOk hb hov
  unfold pipelineMesh
  rw [hall]
  cases hres : composeAll b2 ov2 dims eh sinkOk with
  | error e => rfl
  | ok cells => simp [Except.map]

/-- Claim C4 witness: two runs identical except for `wave_order`. -/
theorem c4_wave_order_irrelevant_witness :
    sameSolve ⟨[("a", [⟨0, 0, 0⟩])], [[0]], [(0, 0)], ["a"]⟩
        ⟨[("a", [⟨0, 0, 0⟩])], [[0]], [(9, 9)], ["a"]⟩ ∧
    (pipelineMesh ⟨[("a", [⟨0, 0, 0⟩])], [[0]], [(0, 0)], ["a"]⟩ none (1, 1) true
        (fun _ _ _ => true)).map Prod.fst =
      (pipelineMesh ⟨[("a", [⟨0, 0, 0⟩])], [[0]], [(9, 9)], ["a"]⟩ none (1, 1) true
        (fun _ _ _ => true)).map Prod.fst :=
  ⟨⟨rfl, rfl, rfl⟩,
    c4_wave_order_irrelevant ⟨[("a", [⟨0, 0, 0⟩])], [[0]], [(0, 0)], ["a"]⟩
      ⟨[("a", [⟨0, 0, 0⟩])], [[0]], [(9, 9)], ["a"]⟩ none none (1, 1) true
      (fun _ _ _ => true) ⟨rfl, rfl, rfl⟩ (Or.inl ⟨rfl, rfl⟩)⟩

/-! ## No mutation of the catalog's master meshes (claim C7) -/

theorem snoc_getElem_lt (L : List Mesh) (r : Mesh) (j : Nat) (hj : j < L.length) :
    (L ++ [r])[j]? = L[j]? := List.getElem?_append_left hj

theorem set_snoc_getElem_lt (M : List Mesh) (t r : Mesh) (k j : Nat)
    (hj : j < M.length) (hk : j ≠ k) :
    ((M.set k t) ++ [r])[j]? = M[j]? := by
  rw [List.getElem?_append_left (by rw [List.length_set]; exact hj),
    List.getElem?_set_ne (Ne.symm hk)]

theorem composeCellHeap_preserves (tilesI : CatalogIds) (names : List String) (g : Grid)
    (over : Option (CatalogIds × List String × Grid)) (dims : ℚ × ℚ) (y x : Nat)
    (s s' : HState) (h : composeCellHeap tilesI names g over dims y x s = .ok s') :
    s.heap.length ≤ s'.heap.length ∧
    ∀ j, j < s.heap.length → s'.heap[j]? = s.heap[j]? := by
  unfold composeCellHeap at h
  cases hlk : lookupName names g y x with
  | error e => rw [hlk] at h; exact absurd h (by simp)
  | ok p =>
    rw [hlk] at h
    simp only [bindE_ok] at h
    cases hlkup : tilesI.lookup p.2 with
    | none => rw [hlkup] at h; exact absurd h (by simp)
    | some tid =>
      rw [hlkup] at h
      simp only [orErr_some, bindE_ok] at h
      cases over with
      | none =>
        simp only [bindE_ok] at h
        obtain rfl := Except.ok.inj h
        constructor
        · simp [List.length_set]
        · intro j hj
          rw [set_snoc_getElem_lt _ _ _ _ j (by simp; omega) (by omega),
            snoc_getElem_lt _ _ j hj]
      | some od =>
        simp only [bindE_ok] at h
        cases hlk2 : lookupName od.2.1 od.2.2 y x with
        | error e => rw [hlk2] at h; exact absurd h (by simp)
        | ok q =>
          rw [hlk2] at h
          simp only [bindE_ok] at h
          cases hlkup2 : od.1.lookup q.2 with
          | none => rw [hlkup2] at h; exact absurd h (by simp)
          | some otid =>
            rw [hlkup2] at h
            simp only [orErr_some, bindE_ok] at h
            obtain rfl := Except.ok.inj h
            constructor
            · simp [List.length_set]
            · intro j hj
              rw [set_snoc_getElem_lt _ _ _ _ j (by simp; omega) (by simp; omega),
                snoc_getElem_lt _ _ j (by simp; omega), snoc_getElem_lt _ _ j (by simp; omega),
                snoc_getElem_lt _ _ j hj]

theorem exceptFoldList_preserves {α : Type}
    (f : α → HState → Except CErr HState)
    (hf : ∀ a t t', f a t = .ok t' → t.heap.length ≤ t'.heap.length ∧
      ∀ j, j < t.heap.length → t'.heap[j]? = t.heap[j]?)
    (l : List α) (s s' : HState) (h : exceptFoldList f l s = .ok s') :
    s.heap.length ≤ s'.heap.length ∧
    ∀ j, j < s.heap.length → s'.heap[j]? = s.heap[j]? := by
  induction l generalizing s with
  | nil =>
    have h' : (Except.ok s : Except CErr HState) = .ok s' := h
    obtain rfl := Except.ok.inj h'
    exact ⟨le_rfl, fun j hj => rfl⟩
  | cons a l ih =>
    rw [exceptFoldList] at h
    cases hfa : f a s with
    | error e => rw [hfa] at h; exact absurd h (by simp)
    | ok s2 =>
      rw [hfa] at h
      simp only [bindE_ok] at h
      obtain ⟨hl1, hp1⟩ := hf a s s2 hfa
      obtain ⟨hl2, hp2⟩ := ih s2 h
      exact ⟨le_trans hl1 hl2,
        fun j hj => (hp2 j (lt_of_lt_of_le hj hl1)).trans (hp1 j hj)⟩

/-- Claim C7: composition never mutates the catalog's master tile meshes.
Every heap object a catalog entry points at (in the base catalog, and in
the overhanging catalog when present) is unchanged after the whole
composition loop: only the private per-cell copies and the freshly
allocated concatenations are written. -/
theorem c7_catalog_not_mutated (tilesI : CatalogIds) (names : List String) (g : Grid)
    (over : Option (CatalogIds × List String × Grid)) (dims : ℚ × ℚ)
    (s s' : HState) (hrun : composeHeap tilesI names g over dims s = .ok s')
    (hids : ∀ p ∈ tilesI, p.2 < s.heap.length)
    (hoids : ∀ od, over = some od → ∀ p ∈ od.1, p.2 < s.heap.length) :
    (∀ p ∈ tilesI, s'.heap.getD p.2 [] = s.heap.getD p.2 []) ∧
    (∀ od, over = some od → ∀ p ∈ od.1,
      s'.heap.getD p.2 [] = s.heap.getD p.2 []) := by
  unfold composeHeap at hrun
  have hpres := exceptFoldList_preserves
    (fun yx t => composeCellHeap tilesI names g over dims yx.1 yx.2 t)
    (fun a t t' ht => composeCellHeap_preserves tilesI names g over dims a.1 a.2 t t' ht)
    (cellList (gridH g) (gridW g)) s s' hrun
  refine ⟨fun p hp => ?_, fun od hod p hp => ?_⟩
  · rw [List.getD_eq_getElem?_getD, List.getD_eq_getElem?_getD, hpres.2 p.2 (hids p hp)]
  · rw [List.getD_eq_getElem?_getD, List.getD_eq_getElem?_getD,
      hpres.2 p.2 (hoids od hod p hp)]

/-- Claim C7 witness: a concrete one-cell run over a heap holding the
master fragment (id 0) and the empty accumulator (id 1). -/
theorem c7_catalog_not_mutated_witness :
    composeHeap [("a", 0)] ["a"] [[0]] none (1, 1) ⟨[[⟨5, 5, 5⟩], []], 1⟩ =
      .ok ⟨[[⟨5, 5, 5⟩], [], [⟨5, 5, 5⟩], [⟨5, 5, 5⟩]], 3⟩ ∧
    (∀ p ∈ ([("a", 0)] : CatalogIds), p.2 < ([[⟨5, 5, 5⟩], []] : List Mesh).length) ∧
    (∀ p ∈ ([("a", 0)] : CatalogIds),
      (HState.mk [[⟨5, 5, 5⟩], [], [⟨5, 5, 5⟩], [⟨5, 5, 5⟩]] 3).heap.getD p.2 [] =
        (HState.mk [[⟨5, 5, 5⟩], []] 1).heap.getD p.2 []) :=
  ⟨by with_unfolding_all rfl, by decide,
    (c7_catalog_not_mutated [("a", 0)] ["a"] [[0]] none (1, 1) ⟨[[⟨5, 5, 5⟩], []], 1⟩
      ⟨[[⟨5, 5, 5⟩], [], [⟨5, 5, 5⟩], [⟨5, 5, 5⟩]], 3⟩ (by with_unfolding_all rfl)
      (by decide) (fun od hod => Option.noConfusion hod)).1⟩

/-! ## The layer solves (claims C8, C10) -/

theorem lookup_none_contains_false {β : Type} (l : List (String × β)) (name : String)
    (h : l.lookup name = none) : (l.map Prod.fst).contains name = false := by
  induction l with
  | nil => rfl
  | cons p l ih =>
    obtain ⟨k, v⟩ := p
    rw [List.lookup_cons] at h
    cases hbk : name == k with
    | true =>
      rw [hbk] at h
      simp at h
    | false =>
      rw [hbk] at h
      rw [List.map_cons, List.contains_cons, ih h, Bool.or_false]
      exact hbk

/-- Claim C8 (spec-modelled solver): if `initial_tile_name` names no tile of
the catalog built from the configuration, the layer solve fails with
`ConfigurationError` — and it does so for every possible behaviour of the
opaque solving core, i.e. no solver run is started with the unregistered
name. -/
theorem c8_unregistered_initial_tile (cfgTiles : Catalog) (shape : Nat × Nat)
    (name : String) (h : cfgTiles.lookup name = none) (oracle : Oracle) :
    solve_with_wfc oracle cfgTiles shape name = .error .configurationError := by
  unfold solve_with_wfc runSolver
  have hc := lookup_none_contains_false cfgTiles name h
  simp only [List.all_cons, List.all_nil, Bool.and_true, hc, Bool.false_eq_true,
    if_false, bindE_error]

/-- Claim C8 witness: the name `wall` is absent from a one-tile catalog. -/
theorem c8_unregistered_initial_tile_witness :
    (([("floor", [⟨0, 0, 0⟩])] : Catalog).lookup "wall" = none) ∧
    solve_with_wfc (fun _ _ _ => .ok ([[0]], [])) [("floor", [⟨0, 0, 0⟩])] (2, 2) "wall" =
      .error .configurationError :=
  ⟨by with_unfolding_all rfl,
    c8_unregistered_initial_tile [("floor", [⟨0, 0, 0⟩])] (2, 2) "wall"
      (by with_unfolding_all rfl) (fun _ _ _ => .ok ([[0]], []))⟩

theorem solve_with_wfc_shape (oracle : Oracle) (cfgTiles : Catalog) (shape : Nat × Nat)
    (name : String) (L : LayerData)
    (hor : ∀ sh reg init g wo, oracle sh reg init = .ok (g, wo) → gridRect g sh.1 sh.2)
    (h : solve_with_wfc oracle cfgTiles shape name = .ok L) :
    gridRect L.wave shape.1 shape.2 := by
  unfold solve_with_wfc runSolver at h
  cases hall : ([(name, (shape.1 / 2, shape.2 / 2))] : List (String × (Nat × Nat))).all
      (fun p => (cfgTiles.map Prod.fst).contains p.1) with
  | false =>
    rw [hall] at h
    exact absurd h (by simp)
  | true =>
    rw [hall] at h
    simp only [if_true] at h
    cases hor1 : oracle shape (cfgTiles.map Prod.fst)
        [(name, (shape.1 / 2, shape.2 / 2))] with
    | error e => rw [hor1] at h; exact absurd h (by simp)
    | ok r =>
      rw [hor1] at h
      simp only [bindE_ok] at h
      obtain rfl := Except.ok.inj h
      exact hor shape _ _ r.1 r.2 hor1

/-- Claim C10 (spec-modelled solver contract): the base solve and the
overhanging solve of one generation run are invoked with the identical
`shape` argument, so — with the spec's guarantee that a solve returns a
grid of the requested shape — the two resolved grids are both `H × W`
rectangular: equal shapes, index-aligned cell for cell. -/
theorem c10_layer_shapes_aligned (oracle1 oracle2 : Oracle) (cfg oc : Catalog)
    (shape : Nat × Nat) (n1 n2 : String) (base over : LayerData)
    (h1 : ∀ sh reg init g wo, oracle1 sh reg init = .ok (g, wo) → gridRect g sh.1 sh.2)
    (h2 : ∀ sh reg init g wo, oracle2 sh reg init = .ok (g, wo) → gridRect g sh.1 sh.2)
    (hrun : runLayerSolves oracle1 oracle2 cfg (some oc) shape n1 n2 =
      .ok (base, some over)) :
    gridRect base.wave shape.1 shape.2 ∧ gridRect over.wave shape.1 shape.2 := by
  unfold runLayerSolves at hrun
  cases hs1 : solve_with_wfc oracle1 cfg shape n1 with
  | error e => rw [hs1] at hrun; exact absurd hrun (by simp)
  | ok b1 =>
    rw [hs1] at hrun
    simp only [bindE_ok] at hrun
    cases hs2 : solve_with_wfc oracle2 oc shape n2 with
    | error e => rw [hs2] at hrun; exact absurd hrun (by simp)
    | ok o1 =>
      rw [hs2] at hrun
      simp only [bindE_ok] at hrun
      have hpair := Except.ok.inj hrun
      have hb : b1 = base := congrArg Prod.fst hpair
      have ho : o1 = over := Option.some.inj (congrArg Prod.snd hpair)
      subst hb
      subst ho
      exact ⟨solve_with_wfc_shape oracle1 cfg shape n1 b1 h1 hs1,
        solve_with_wfc_shape oracle2 oc shape n2 o1 h2 hs2⟩

/-- Claim C10 witness: a concrete two-layer run at shape `(2, 3)` with a
solver oracle that returns a grid of the requested shape. -/
theorem c10_layer_shapes_aligned_witness :
    runLayerSolves (fun sh _ _ => .ok (List.replicate sh.1 (List.replicate sh.2 0), []))
        (fun sh _ _ => .ok (List.replicate sh.1 (List.replicate sh.2 0), []))
        [("floor", [⟨0, 0, 0⟩])] (some [("walls_empty", [⟨0, 0, 1⟩])]) (2, 3)
        "floor" "walls_empty" =
      .ok (⟨[("floor", [⟨0, 0, 0⟩])], [[0, 0, 0], [0, 0, 0]], [], ["floor"]⟩,
        some ⟨[("walls_empty", [⟨0, 0, 1⟩])], [[0, 0, 0], [0, 0, 0]], [], ["walls_empty"]⟩) ∧
    gridRect (LayerData.mk [("floor", [⟨0, 0, 0⟩])] [[0, 0, 0], [0, 0, 0]] [] ["floor"]).wave
      2 3 ∧
    gridRect (LayerData.mk [("walls_empty", [⟨0, 0, 1⟩])] [[0, 0, 0], [0, 0, 0]] []
      ["walls_empty"]).wave 2 3 :=
  ⟨by with_unfolding_all rfl,
    c10_layer_shapes_aligned
      (fun sh _ _ => .ok (List.replicate sh.1 (List.replicate sh.2 0), []))
      (fun sh _ _ => .ok (List.replicate sh.1 (List.replicate sh.2 0), []))
      [("floor", [⟨0, 0, 0⟩])] [("walls_empty", [⟨0, 0, 1⟩])] (2, 3) "floor" "walls_empty"
      ⟨[("floor", [⟨0, 0, 0⟩])], [[0, 0, 0], [0, 0, 0]], [], ["floor"]⟩
      ⟨[("walls_empty", [⟨0, 0, 1⟩])], [[0, 0, 0], [0, 0, 0]], [], ["walls_empty"]⟩
      (by
        intro sh reg init g wo hg
        have hgw : g = List.replicate sh.1 (List.replicate sh.2 0) :=
          (congrArg Prod.fst (Except.ok.inj hg)).symm
        subst hgw
        constructor
        · simp
        · intro row hrow
          rw [List.eq_of_mem_replicate hrow]
          simp)
      (by
        intro sh reg init g wo hg
        have hgw : g = List.replicate sh.1 (List.replicate sh.2 0) :=
          (congrArg Prod.fst (Except.ok.inj hg)).symm
        subst hgw
        constructor
        · simp
        · intro row hrow
          rw [List.eq_of_mem_replicate hrow]
          simp)
      (by with_unfolding_all rfl)⟩

end TerrainGen
